import Mathlib

/-!
Shallow embedding of drivers/misc/aspeed-lpc-mbox.c: a byte-oriented
mailbox channel over a 16-byte register window with a RECV/MASK/SEND
handshake in the BMC control register.

Registers are byte-addressed with a 4-byte stride; a register bank is
modelled as a function from register offset to its (byte) content.  The
bus may fail a read or a write of a given register; fault injection is
an environment `Env` fixed for the run.  Every bus transaction, lock
acquisition/release, wait and wakeup is recorded in an event trace so
that claims about what the code touches are statements about the trace.
-/

/-- One observable event of the driver: a bus read, a bus write
(register and value), taking or dropping the mutex, suspending on the
wait queue, or waking all waiters. -/
inductive Ev where
  | rd (reg : Nat)
  | wr (reg : Nat) (val : Nat)
  | lock
  | unlock
  | sleep
  | wake
  deriving DecidableEq, Repr

/-- Result of a file operation, mirroring the driver's return values:
`ok n` is a nonnegative byte count (or 0 for open/release), `fault` is
-EFAULT, `invalidArgument` is -EINVAL, `wouldBlock` is -EAGAIN,
`interrupted` is -ERESTARTSYS, `busy` is -EBUSY.  `blocked` marks the
blocking read path suspended with no wakeup arriving in this
sequential model. -/
inductive MboxRet where
  | ok (n : Nat)
  | fault
  | invalidArgument
  | wouldBlock
  | interrupted
  | busy
  | blocked
  deriving DecidableEq, Repr

/-- Return value of the interrupt handler: IRQ_NONE or IRQ_HANDLED. -/
inductive IrqRet where
  | notMine
  | handled
  deriving DecidableEq, Repr

/-- Bus fault injection, fixed for a run: whether a regmap read or a
regmap write of a given register fails. -/
structure Env where
  readFail : Nat → Bool
  writeFail : Nat → Bool

/-- State of one mailbox instance: the register bank contents, the
process-wide open count (`aspeed_mbox_open_count`), the number of bus
errors logged by dev_err, the number of wake_up calls issued, and the
event trace (oldest first). -/
structure Mbox where
  regs : Nat → Nat
  openCount : Nat
  errors : Nat
  wakeups : Nat
  trace : List Ev

def ASPEED_MBOX_NUM_REGS : Nat := 16

def ASPEED_MBOX_DATA_0 : Nat := 0x00
def ASPEED_MBOX_STATUS_0 : Nat := 0x40
def ASPEED_MBOX_STATUS_1 : Nat := 0x44
def ASPEED_MBOX_BMC_CTRL : Nat := 0x48
def ASPEED_MBOX_CTRL_RECV : Nat := 0x80
def ASPEED_MBOX_CTRL_MASK : Nat := 0x02
def ASPEED_MBOX_CTRL_SEND : Nat := 0x01
def ASPEED_MBOX_HOST_CTRL : Nat := 0x4c
def ASPEED_MBOX_INTERRUPT_0 : Nat := 0x50
def ASPEED_MBOX_INTERRUPT_1 : Nat := 0x54

/-- Modelled from the spec: the hardware semantics of a write to the
BMC control register, which is not part of the source (the device is
behind the regmap).  Per the spec, bit 7 (RECV) is write-one-to-clear
and writing it also unmasks the interrupt in the same step, bit 1
(MASK) is set by writing it, bit 0 (SEND) is set by writing it and
cleared only by the other side; reserved bits read as zero. -/
def ctrlWrite (old v : Nat) : Nat :=
  (if v.testBit 7 then 0 else if old.testBit 7 then 128 else 0) +
  (if v.testBit 7 then 0 else if v.testBit 1 || old.testBit 1 then 2 else 0) +
  (if v.testBit 0 || old.testBit 0 then 1 else 0)

/-- Effect of a successful bus write on the register bank: the BMC
control register follows `ctrlWrite`, every other register stores the
low byte of the value. -/
def hwWrite (regs : Nat → Nat) (reg v : Nat) : Nat → Nat :=
  fun r =>
    if r = reg then
      if reg = ASPEED_MBOX_BMC_CTRL then ctrlWrite (regs reg) v else v % 256
    else regs r

/-- aspeed_mbox_inb: one bus read of `reg`.  On a regmap_read failure
the initial value 0xff is kept (the sentinel) and the error is logged;
otherwise the register's low byte is returned.  The read is recorded
in the trace either way. -/
def aspeed_mbox_inb (env : Env) (st : Mbox) (reg : Nat) : Nat × Mbox :=
  if env.readFail reg then
    (0xff, { st with errors := st.errors + 1, trace := st.trace ++ [Ev.rd reg] })
  else
    (st.regs reg % 256, { st with trace := st.trace ++ [Ev.rd reg] })

/-- aspeed_mbox_outb: one bus write of `data` to `reg`.  On a
regmap_write failure the error is logged and the register bank is
unchanged; otherwise the write takes effect.  The transaction is
recorded in the trace either way. -/
def aspeed_mbox_outb (env : Env) (st : Mbox) (data : Nat) (reg : Nat) : Mbox :=
  if env.writeFail reg then
    { st with errors := st.errors + 1, trace := st.trace ++ [Ev.wr reg data] }
  else
    { st with regs := hwWrite st.regs reg data, trace := st.trace ++ [Ev.wr reg data] }

/-- aspeed_mbox_open: atomic_inc_return == 1 means we own the single
session; then one acknowledge write of the RECV bit value to the BMC
control register.  Otherwise the count is dropped back and -EBUSY is
returned with no register access. -/
def aspeed_mbox_open (env : Env) (st : Mbox) : MboxRet × Mbox :=
  if st.openCount + 1 = 1 then
    (MboxRet.ok 0,
      aspeed_mbox_outb env { st with openCount := st.openCount + 1 }
        ASPEED_MBOX_CTRL_RECV ASPEED_MBOX_BMC_CTRL)
  else
    (MboxRet.busy, st)

/-- aspeed_mbox_release: drop the open count; no register access. -/
def aspeed_mbox_release (st : Mbox) : MboxRet × Mbox :=
  (MboxRet.ok 0, { st with openCount := st.openCount - 1 })

/-- Outcome of read's copy loop: `res` is `some (p - buf)` when the
loop ran to completion and `none` when a __put_user failed (the C code
then returns __put_user's error), `buf` is the list of bytes delivered
to the user buffer in order, `st` is the state after the loop. -/
structure ReadLoopOut where
  res : Option Nat
  buf : List Nat
  st : Mbox

/-- The body of aspeed_mbox_read's for loop:
for (i = *ppos; count > 0 && i < ASPEED_MBOX_NUM_REGS; i++) it reads
data register i, attempts __put_user (success decided by `putOk` at
the current buffer position `p`), and on failure stops with `none`.
Structural recursion on the remaining `cnt`. -/
def readLoop (env : Env) (putOk : Nat → Bool) (st : Mbox) (i cnt p : Nat) :
    ReadLoopOut :=
  match cnt with
  | 0 => ⟨some p, [], st⟩
  | Nat.succ c =>
    if i < ASPEED_MBOX_NUM_REGS then
      match aspeed_mbox_inb env st (ASPEED_MBOX_DATA_0 + i * 4) with
      | (v, st1) =>
        if putOk p then
          let out := readLoop env putOk st1 (i + 1) c (p + 1)
          ⟨out.res, v :: out.buf, out.st⟩
        else
          ⟨none, [], st1⟩
    else
      ⟨some p, [], st⟩

/-- The locked section of aspeed_mbox_read: mutex_lock, the copy loop,
then on success the RECV acknowledge write (write-to-clear, also
unmasks in one step) and ret = p - buf; on a __put_user failure the
acknowledge is skipped (goto out_unlock).  mutex_unlock either way. -/
def readBody (env : Env) (putOk : Nat → Bool) (st : Mbox) (count ppos : Nat) :
    MboxRet × List Nat × Mbox :=
  let stl := { st with trace := st.trace ++ [Ev.lock] }
  let out := readLoop env putOk stl ppos count 0
  match out.res with
  | none =>
    (MboxRet.fault, out.buf, { out.st with trace := out.st.trace ++ [Ev.unlock] })
  | some p =>
    let st2 := aspeed_mbox_outb env out.st ASPEED_MBOX_CTRL_RECV ASPEED_MBOX_BMC_CTRL
    (MboxRet.ok p, out.buf, { st2 with trace := st2.trace ++ [Ev.unlock] })

/-- aspeed_mbox_read.  `accessOk` models access_ok(VERIFY_WRITE, buf,
count); `putOk j` models whether __put_user succeeds at buffer
position j; `nonblock` is O_NONBLOCK; `cancelled` models a pending
signal cancelling the blocking wait.  After the access_ok and bound
checks, the non-blocking path reads the BMC control register once and
returns -EAGAIN if RECV is clear; the blocking path evaluates the same
wait predicate and either proceeds (RECV already set), is interrupted,
or stays suspended. -/
def aspeed_mbox_read (env : Env) (st : Mbox) (nonblock cancelled accessOk : Bool)
    (putOk : Nat → Bool) (count ppos : Nat) : MboxRet × List Nat × Mbox :=
  if accessOk = false then
    (MboxRet.fault, [], st)
  else if count + ppos > ASPEED_MBOX_NUM_REGS then
    (MboxRet.invalidArgument, [], st)
  else if nonblock then
    match aspeed_mbox_inb env st ASPEED_MBOX_BMC_CTRL with
    | (v, st1) =>
      if v.testBit 7 = false then
        (MboxRet.wouldBlock, [], st1)
      else
        readBody env putOk st1 count ppos
  else
    match aspeed_mbox_inb env st ASPEED_MBOX_BMC_CTRL with
    | (v, st1) =>
      if v.testBit 7 then
        readBody env putOk st1 count ppos
      else
        let st2 := { st1 with trace := st1.trace ++ [Ev.sleep] }
        if cancelled then
          (MboxRet.interrupted, [], st2)
        else
          (MboxRet.blocked, [], st2)

/-- The body of aspeed_mbox_write's for loop: for each remaining byte,
__get_user (modelled by `getUser` at buffer position `p`; `none` is a
failure, whose error the C code returns), then one bus write to data
register i. -/
def writeLoop (env : Env) (getUser : Nat → Option Nat) (st : Mbox) (i cnt p : Nat) :
    Option Nat × Mbox :=
  match cnt with
  | 0 => (some p, st)
  | Nat.succ c =>
    if i < ASPEED_MBOX_NUM_REGS then
      match getUser p with
      | none => (none, st)
      | some b =>
        writeLoop env getUser
          (aspeed_mbox_outb env st b (ASPEED_MBOX_DATA_0 + i * 4)) (i + 1) c (p + 1)
    else
      (some p, st)

/-- aspeed_mbox_write.  access_ok(VERIFY_READ) check, bound check,
mutex_lock, the copy loop, then the SEND-bit write to the BMC control
register and ret = p - buf; a __get_user failure skips the SEND write
(goto out_unlock).  mutex_unlock either way. -/
def aspeed_mbox_write (env : Env) (st : Mbox) (accessOk : Bool)
    (getUser : Nat → Option Nat) (count ppos : Nat) : MboxRet × Mbox :=
  if accessOk = false then
    (MboxRet.fault, st)
  else if count + ppos > ASPEED_MBOX_NUM_REGS then
    (MboxRet.invalidArgument, st)
  else
    let stl := { st with trace := st.trace ++ [Ev.lock] }
    match writeLoop env getUser stl ppos count 0 with
    | (none, st1) =>
      (MboxRet.fault, { st1 with trace := st1.trace ++ [Ev.unlock] })
    | (some p, st1) =>
      let st2 := aspeed_mbox_outb env st1 ASPEED_MBOX_CTRL_SEND ASPEED_MBOX_BMC_CTRL
      (MboxRet.ok p, { st2 with trace := st2.trace ++ [Ev.unlock] })

/-- aspeed_mbox_poll: one read of the BMC control register; POLLIN
(here `true`) iff the RECV bit of the value read is set. -/
def aspeed_mbox_poll (env : Env) (st : Mbox) : Bool × Mbox :=
  match aspeed_mbox_inb env st ASPEED_MBOX_BMC_CTRL with
  | (v, st1) => (v.testBit 7, st1)

/-- aspeed_mbox_irq: one read of the BMC control register; if RECV is
clear in the value read, IRQ_NONE with nothing else done; otherwise a
single write of the MASK bit value (RECV left set), then wake_up, and
IRQ_HANDLED. -/
def aspeed_mbox_irq (env : Env) (st : Mbox) : IrqRet × Mbox :=
  match aspeed_mbox_inb env st ASPEED_MBOX_BMC_CTRL with
  | (v, st1) =>
    if v.testBit 7 = false then
      (IrqRet.notMine, st1)
    else
      let st2 := aspeed_mbox_outb env st1 ASPEED_MBOX_CTRL_MASK ASPEED_MBOX_BMC_CTRL
      (IrqRet.handled, { st2 with wakeups := st2.wakeups + 1, trace := st2.trace ++ [Ev.wake] })

/-- The byte aspeed_mbox_inb yields for `reg` in state `st`: the
sentinel 0xff on an injected read failure, the register's low byte
otherwise. -/
def inbVal (env : Env) (st : Mbox) (reg : Nat) : Nat :=
  if env.readFail reg then 0xff else st.regs reg % 256

/-- The list of bytes the copy loop delivers from data registers
i, i+1, ..., i+cnt-1: the sentinel 0xff where a bus read fails, the
register's low byte otherwise. -/
def windowVals (env : Env) (regs : Nat → Nat) (i cnt : Nat) : List Nat :=
  match cnt with
  | 0 => []
  | Nat.succ c =>
    (if env.readFail (ASPEED_MBOX_DATA_0 + i * 4) then 0xff
     else regs (ASPEED_MBOX_DATA_0 + i * 4) % 256) :: windowVals env regs (i + 1) c

/-- How many of the bus reads of data registers i, ..., i+cnt-1 fail
(each failure is logged once by aspeed_mbox_inb). -/
def rdFailCount (env : Env) (i cnt : Nat) : Nat :=
  match cnt with
  | 0 => 0
  | Nat.succ c =>
    (if env.readFail (ASPEED_MBOX_DATA_0 + i * 4) then 1 else 0) + rdFailCount env (i + 1) c

/-- The bus-read events of the copy loop over data registers
i, ..., i+cnt-1. -/
def rdEvents (i cnt : Nat) : List Ev :=
  match cnt with
  | 0 => []
  | Nat.succ c => Ev.rd (ASPEED_MBOX_DATA_0 + i * 4) :: rdEvents (i + 1) c

/-- The register bank after write's copy loop stored bytes
getUser p, getUser (p+1), ... into data registers i, ..., i+cnt-1
(a write whose bus transaction fails leaves its register unchanged). -/
def windowStore (env : Env) (getUser : Nat → Option Nat) (regs : Nat → Nat)
    (i cnt p : Nat) : Nat → Nat :=
  match cnt with
  | 0 => regs
  | Nat.succ c =>
    windowStore env getUser
      (if env.writeFail (ASPEED_MBOX_DATA_0 + i * 4) then regs
       else hwWrite regs (ASPEED_MBOX_DATA_0 + i * 4) ((getUser p).getD 0))
      (i + 1) c (p + 1)

/-- How many of the bus writes to data registers i, ..., i+cnt-1 fail. -/
def wrFailCount (env : Env) (i cnt : Nat) : Nat :=
  match cnt with
  | 0 => 0
  | Nat.succ c =>
    (if env.writeFail (ASPEED_MBOX_DATA_0 + i * 4) then 1 else 0) + wrFailCount env (i + 1) c

/-- The bus-write events of write's copy loop over data registers
i, ..., i+cnt-1 with source bytes getUser p, getUser (p+1), .... -/
def wrEvents (getUser : Nat → Option Nat) (i cnt p : Nat) : List Ev :=
  match cnt with
  | 0 => []
  | Nat.succ c =>
    Ev.wr (ASPEED_MBOX_DATA_0 + i * 4) ((getUser p).getD 0) :: wrEvents getUser (i + 1) c (p + 1)

/-- Whether a result is one of the two kinds the spec's interface
table allows for write: a byte count or InvalidArgument. -/
def writeResultInTable : MboxRet → Bool
  | MboxRet.ok _ => true
  | MboxRet.invalidArgument => true
  | _ => false

/-- Whether a result is a byte count, InvalidArgument or Fault: the
result kinds aspeed_mbox_write can actually produce. -/
def writeResultPossible : MboxRet → Bool
  | MboxRet.ok _ => true
  | MboxRet.invalidArgument => true
  | MboxRet.fault => true
  | _ => false

/-- Environment with no injected bus faults. -/
def noFailEnv : Env := { readFail := fun _ => false, writeFail := fun _ => false }

/-- Environment where reading the BMC control register fails. -/
def ctrlReadFailEnv : Env :=
  { readFail := fun r => r == ASPEED_MBOX_BMC_CTRL, writeFail := fun _ => false }

/-- Environment where reading data register 1 (offset 4) fails. -/
def dataReadFailEnv : Env := { readFail := fun r => r == 4, writeFail := fun _ => false }

/-- Environment where writing data register 1 (offset 4) fails. -/
def dataWriteFailEnv : Env := { readFail := fun _ => false, writeFail := fun r => r == 4 }

/-- A sample register bank with RECV set in the BMC control register
and distinct bytes in the data window. -/
def demoRegs : Nat → Nat := fun r =>
  if r = ASPEED_MBOX_BMC_CTRL then 0x80 else (r / 4 + 10) % 256

/-- A sample open-session state whose control register has RECV set. -/
def stRecvSet : Mbox :=
  { regs := demoRegs, openCount := 1, errors := 0, wakeups := 0, trace := [] }

/-- A sample open-session state whose control register is all clear. -/
def stRecvClear : Mbox :=
  { regs := fun r => if r = ASPEED_MBOX_BMC_CTRL then 0 else demoRegs r,
    openCount := 1, errors := 0, wakeups := 0, trace := [] }

/-- A sample state with no session open. -/
def stClosed : Mbox :=
  { regs := demoRegs, openCount := 0, errors := 0, wakeups := 0, trace := [] }

/-- A sample state as the interrupt handler leaves it: RECV still set
and MASK set in the BMC control register. -/
def stRecvMasked : Mbox :=
  { regs := fun r => if r = ASPEED_MBOX_BMC_CTRL then 0x82 else demoRegs r,
    openCount := 1, errors := 0, wakeups := 0, trace := [] }

theorem ctrlWrite_testBit7 (old v : Nat) :
    (ctrlWrite old v).testBit 7 = (!v.testBit 7 && old.testBit 7) := by
  unfold ctrlWrite
  cases hv7 : v.testBit 7 <;> cases hv1 : v.testBit 1 <;> cases hv0 : v.testBit 0 <;>
    cases ho7 : old.testBit 7 <;> cases ho1 : old.testBit 1 <;> cases ho0 : old.testBit 0 <;>
      (simp [hv7, hv1, hv0, ho7, ho1, ho0]; all_goals decide)

theorem ctrlWrite_testBit1 (old v : Nat) :
    (ctrlWrite old v).testBit 1 = (!v.testBit 7 && (v.testBit 1 || old.testBit 1)) := by
  unfold ctrlWrite
  cases hv7 : v.testBit 7 <;> cases hv1 : v.testBit 1 <;> cases hv0 : v.testBit 0 <;>
    cases ho7 : old.testBit 7 <;> cases ho1 : old.testBit 1 <;> cases ho0 : old.testBit 0 <;>
      (simp [hv7, hv1, hv0, ho7, ho1, ho0]; all_goals decide)

theorem ctrlWrite_testBit0 (old v : Nat) :
    (ctrlWrite old v).testBit 0 = (v.testBit 0 || old.testBit 0) := by
  unfold ctrlWrite
  cases hv7 : v.testBit 7 <;> cases hv1 : v.testBit 1 <;> cases hv0 : v.testBit 0 <;>
    cases ho7 : old.testBit 7 <;> cases ho1 : old.testBit 1 <;> cases ho0 : old.testBit 0 <;>
      simp [hv7, hv1, hv0, ho7, ho1, ho0]

theorem aspeed_mbox_inb_eq (env : Env) (st : Mbox) (reg : Nat) :
    aspeed_mbox_inb env st reg =
      (inbVal env st reg,
       { st with errors := st.errors + (if env.readFail reg then 1 else 0),
                 trace := st.trace ++ [Ev.rd reg] }) := by
  unfold aspeed_mbox_inb inbVal
  by_cases h : env.readFail reg <;> simp [h]

theorem aspeed_mbox_outb_eq (env : Env) (st : Mbox) (data reg : Nat) :
    aspeed_mbox_outb env st data reg =
      { st with
          regs := if env.writeFail reg then st.regs else hwWrite st.regs reg data,
          errors := st.errors + (if env.writeFail reg then 1 else 0),
          trace := st.trace ++ [Ev.wr reg data] } := by
  unfold aspeed_mbox_outb
  by_cases h : env.writeFail reg <;> simp [h]

theorem readLoop_spec (env : Env) (putOk : Nat → Bool) :
    ∀ (cnt i p : Nat) (st : Mbox),
      i + cnt ≤ ASPEED_MBOX_NUM_REGS →
      (∀ j, j < cnt → putOk (p + j) = true) →
      readLoop env putOk st i cnt p =
        ⟨some (p + cnt), windowVals env st.regs i cnt,
         { st with errors := st.errors + rdFailCount env i cnt,
                   trace := st.trace ++ rdEvents i cnt }⟩ := by
  intro cnt
  induction cnt with
  | zero =>
    intro i p st h hput
    simp [readLoop, windowVals, rdFailCount, rdEvents]
  | succ c ih =>
    intro i p st h hput
    have hi : i < ASPEED_MBOX_NUM_REGS := by
      unfold ASPEED_MBOX_NUM_REGS at *; omega
    have hp0 : putOk p = true := by
      have := hput 0 (by omega); simpa using this
    have hput' : ∀ j, j < c → putOk (p + 1 + j) = true := by
      intro j hj
      have e : p + 1 + j = p + (j + 1) := by omega
      rw [e]; exact hput (j + 1) (by omega)
    have hrec := ih (i + 1) (p + 1)
      { st with errors := st.errors + (if env.readFail (ASPEED_MBOX_DATA_0 + i * 4) then 1 else 0),
                trace := st.trace ++ [Ev.rd (ASPEED_MBOX_DATA_0 + i * 4)] }
      (by unfold ASPEED_MBOX_NUM_REGS at *; omega) hput'
    simp only [readLoop, hi, if_pos, aspeed_mbox_inb_eq, hp0, if_true]
    rw [hrec]
    simp [windowVals, rdFailCount, rdEvents, inbVal, List.append_assoc]
    omega

theorem readLoop_fault (env : Env) (putOk : Nat → Bool) :
    ∀ (k cnt i p : Nat) (st : Mbox),
      k < cnt →
      i + cnt ≤ ASPEED_MBOX_NUM_REGS →
      (∀ j, j < k → putOk (p + j) = true) →
      putOk (p + k) = false →
      readLoop env putOk st i cnt p =
        ⟨none, windowVals env st.regs i k,
         { st with errors := st.errors + rdFailCount env i (k + 1),
                   trace := st.trace ++ rdEvents i (k + 1) }⟩ := by
  intro k
  induction k with
  | zero =>
    intro cnt i p st hk h hput hfail
    cases cnt with
    | zero => omega
    | succ c =>
      have hi : i < ASPEED_MBOX_NUM_REGS := by
        unfold ASPEED_MBOX_NUM_REGS at *; omega
      have hp0 : putOk p = false := by simpa using hfail
      simp only [readLoop, hi, if_pos, aspeed_mbox_inb_eq, hp0]
      simp [windowVals, rdFailCount, rdEvents]
  | succ k' ih =>
    intro cnt i p st hk h hput hfail
    cases cnt with
    | zero => omega
    | succ c =>
      have hi : i < ASPEED_MBOX_NUM_REGS := by
        unfold ASPEED_MBOX_NUM_REGS at *; omega
      have hp0 : putOk p = true := by
        have := hput 0 (by omega); simpa using this
      have hput' : ∀ j, j < k' → putOk (p + 1 + j) = true := by
        intro j hj
        have e : p + 1 + j = p + (j + 1) := by omega
        rw [e]; exact hput (j + 1) (by omega)
      have hfail' : putOk (p + 1 + k') = false := by
        have e : p + 1 + k' = p + (k' + 1) := by omega
        rw [e]; exact hfail
      have hrec := ih c (i + 1) (p + 1)
        { st with errors := st.errors + (if env.readFail (ASPEED_MBOX_DATA_0 + i * 4) then 1 else 0),
                  trace := st.trace ++ [Ev.rd (ASPEED_MBOX_DATA_0 + i * 4)] }
        (by omega) (by unfold ASPEED_MBOX_NUM_REGS at *; omega) hput' hfail'
      simp only [readLoop, hi, if_pos, aspeed_mbox_inb_eq, hp0, if_true]
      rw [hrec]
      simp [windowVals, rdFailCount, rdEvents, inbVal, List.append_assoc]
      omega

theorem writeLoop_spec (env : Env) (getUser : Nat → Option Nat) :
    ∀ (cnt i p : Nat) (st : Mbox),
      i + cnt ≤ ASPEED_MBOX_NUM_REGS →
      (∀ j, j < cnt → (getUser (p + j)).isSome) →
      writeLoop env getUser st i cnt p =
        (some (p + cnt),
         { st with regs := windowStore env getUser st.regs i cnt p,
                   errors := st.errors + wrFailCount env i cnt,
                   trace := st.trace ++ wrEvents getUser i cnt p }) := by
  intro cnt
  induction cnt with
  | zero =>
    intro i p st h hget
    simp [writeLoop, windowStore, wrFailCount, wrEvents]
  | succ c ih =>
    intro i p st h hget
    have hi : i < ASPEED_MBOX_NUM_REGS := by
      unfold ASPEED_MBOX_NUM_REGS at *; omega
    obtain ⟨b, hb⟩ : ∃ b, getUser p = some b := by
      have := hget 0 (by omega)
      simp only [Nat.add_zero] at this
      exact Option.isSome_iff_exists.mp this
    have hget' : ∀ j, j < c → (getUser (p + 1 + j)).isSome := by
      intro j hj
      have e : p + 1 + j = p + (j + 1) := by omega
      rw [e]; exact hget (j + 1) (by omega)
    have hrec := ih (i + 1) (p + 1)
      { st with
          regs := if env.writeFail (ASPEED_MBOX_DATA_0 + i * 4) then st.regs
                  else hwWrite st.regs (ASPEED_MBOX_DATA_0 + i * 4) b,
          errors := st.errors + (if env.writeFail (ASPEED_MBOX_DATA_0 + i * 4) then 1 else 0),
          trace := st.trace ++ [Ev.wr (ASPEED_MBOX_DATA_0 + i * 4) b] }
      (by unfold ASPEED_MBOX_NUM_REGS at *; omega) hget'
    simp only [writeLoop, hi, if_pos, hb, aspeed_mbox_outb_eq]
    rw [hrec]
    simp [windowStore, wrFailCount, wrEvents, hb, List.append_assoc]
    omega

theorem hwWrite_self_data (regs : Nat → Nat) (reg v : Nat)
    (h : reg ≠ ASPEED_MBOX_BMC_CTRL) : hwWrite regs reg v reg = v % 256 := by
  simp [hwWrite, h]

theorem hwWrite_other (regs : Nat → Nat) (reg v r : Nat) (h : r ≠ reg) :
    hwWrite regs reg v r = regs r := by
  simp [hwWrite, h]

theorem hwWrite_ctrl (regs : Nat → Nat) (v : Nat) :
    hwWrite regs ASPEED_MBOX_BMC_CTRL v ASPEED_MBOX_BMC_CTRL =
      ctrlWrite (regs ASPEED_MBOX_BMC_CTRL) v := by
  simp [hwWrite]

theorem windowVals_eq_map (env : Env) (regs : Nat → Nat) :
    ∀ (cnt i : Nat),
      windowVals env regs i cnt =
        (List.range cnt).map (fun j =>
          if env.readFail (ASPEED_MBOX_DATA_0 + (i + j) * 4) then 0xff
          else regs (ASPEED_MBOX_DATA_0 + (i + j) * 4) % 256) := by
  intro cnt
  induction cnt with
  | zero => intro i; rfl
  | succ c ih =>
    intro i
    rw [List.range_succ_eq_map]
    simp only [windowVals, List.map_cons, List.map_map]
    congr 1
    rw [ih (i + 1)]
    apply List.map_congr_left
    intro a _
    have e : i + (a + 1) = i + 1 + a := by omega
    simp [Function.comp, Nat.succ_eq_add_one, e]

theorem rdFailCount_zero (env : Env) :
    ∀ (cnt i : Nat),
      (∀ j, j < cnt → env.readFail (ASPEED_MBOX_DATA_0 + (i + j) * 4) = false) →
      rdFailCount env i cnt = 0 := by
  intro cnt
  induction cnt with
  | zero => intro i h; rfl
  | succ c ih =>
    intro i h
    have h0 : env.readFail (ASPEED_MBOX_DATA_0 + i * 4) = false := by
      simpa using h 0 (by omega)
    have h' : ∀ j, j < c → env.readFail (ASPEED_MBOX_DATA_0 + (i + 1 + j) * 4) = false := by
      intro j hj
      have e : i + 1 + j = i + (j + 1) := by omega
      rw [e]; exact h (j + 1) (by omega)
    simp [rdFailCount, h0, ih (i + 1) h']

theorem rdFailCount_pos (env : Env) :
    ∀ (cnt i j : Nat), j < cnt →
      env.readFail (ASPEED_MBOX_DATA_0 + (i + j) * 4) = true →
      1 ≤ rdFailCount env i cnt := by
  intro cnt
  induction cnt with
  | zero => intro i j hj _; omega
  | succ c ih =>
    intro i j hj hf
    cases j with
    | zero =>
      simp only [Nat.add_zero] at hf
      simp [rdFailCount, hf]
    | succ j' =>
      have e : i + (j' + 1) = i + 1 + j' := by omega
      rw [e] at hf
      have := ih (i + 1) j' (by omega) hf
      simp only [rdFailCount]
      omega

theorem wrFailCount_zero (env : Env) :
    ∀ (cnt i : Nat),
      (∀ j, j < cnt → env.writeFail (ASPEED_MBOX_DATA_0 + (i + j) * 4) = false) →
      wrFailCount env i cnt = 0 := by
  intro cnt
  induction cnt with
  | zero => intro i h; rfl
  | succ c ih =>
    intro i h
    have h0 : env.writeFail (ASPEED_MBOX_DATA_0 + i * 4) = false := by
      simpa using h 0 (by omega)
    have h' : ∀ j, j < c → env.writeFail (ASPEED_MBOX_DATA_0 + (i + 1 + j) * 4) = false := by
      intro j hj
      have e : i + 1 + j = i + (j + 1) := by omega
      rw [e]; exact h (j + 1) (by omega)
    simp [wrFailCount, h0, ih (i + 1) h']

theorem wrFailCount_pos (env : Env) :
    ∀ (cnt i j : Nat), j < cnt →
      env.writeFail (ASPEED_MBOX_DATA_0 + (i + j) * 4) = true →
      1 ≤ wrFailCount env i cnt := by
  intro cnt
  induction cnt with
  | zero => intro i j hj _; omega
  | succ c ih =>
    intro i j hj hf
    cases j with
    | zero =>
      simp only [Nat.add_zero] at hf
      simp [wrFailCount, hf]
    | succ j' =>
      have e : i + (j' + 1) = i + 1 + j' := by omega
      rw [e] at hf
      have := ih (i + 1) j' (by omega) hf
      simp only [wrFailCount]
      omega

theorem windowStore_miss (env : Env) (getUser : Nat → Option Nat) :
    ∀ (cnt i p : Nat) (regs : Nat → Nat) (r : Nat),
      (∀ j, j < cnt → r ≠ ASPEED_MBOX_DATA_0 + (i + j) * 4) →
      windowStore env getUser regs i cnt p r = regs r := by
  intro cnt
  induction cnt with
  | zero => intro i p regs r h; rfl
  | succ c ih =>
    intro i p regs r h
    have h0 : r ≠ ASPEED_MBOX_DATA_0 + i * 4 := by
      simpa using h 0 (by omega)
    have h' : ∀ j, j < c → r ≠ ASPEED_MBOX_DATA_0 + (i + 1 + j) * 4 := by
      intro j hj
      have e : i + 1 + j = i + (j + 1) := by omega
      rw [e]; exact h (j + 1) (by omega)
    simp only [windowStore]
    rw [ih (i + 1) (p + 1) _ r h']
    by_cases hw : env.writeFail (ASPEED_MBOX_DATA_0 + i * 4) <;> simp [hw, hwWrite, h0]

theorem windowStore_hit (env : Env) (getUser : Nat → Option Nat) :
    ∀ (cnt i p j : Nat) (regs : Nat → Nat),
      j < cnt →
      i + cnt ≤ ASPEED_MBOX_NUM_REGS →
      windowStore env getUser regs i cnt p (ASPEED_MBOX_DATA_0 + (i + j) * 4) =
        (if env.writeFail (ASPEED_MBOX_DATA_0 + (i + j) * 4)
         then regs (ASPEED_MBOX_DATA_0 + (i + j) * 4)
         else (getUser (p + j)).getD 0 % 256) := by
  intro cnt
  induction cnt with
  | zero => intro i p j regs hj _; omega
  | succ c ih =>
    intro i p j regs hj hb
    cases j with
    | zero =>
      have hne : ASPEED_MBOX_DATA_0 + i * 4 ≠ ASPEED_MBOX_BMC_CTRL := by
        simp only [ASPEED_MBOX_DATA_0, ASPEED_MBOX_BMC_CTRL]
        simp only [ASPEED_MBOX_NUM_REGS] at hb
        omega
      simp only [windowStore, Nat.add_zero]
      rw [windowStore_miss env getUser c (i + 1) (p + 1) _ _
        (by intro j' hj'; simp only [ASPEED_MBOX_DATA_0]; omega)]
      by_cases hw : env.writeFail (ASPEED_MBOX_DATA_0 + i * 4) <;>
        simp [hw, hwWrite, hne]
    | succ j' =>
      have hne2 : ASPEED_MBOX_DATA_0 + (i + 1 + j') * 4 ≠ ASPEED_MBOX_DATA_0 + i * 4 := by
        simp only [ASPEED_MBOX_DATA_0]; omega
      simp only [windowStore]
      have e : i + (j' + 1) = i + 1 + j' := by omega
      rw [e]
      rw [ih (i + 1) (p + 1) j' _ (by omega) (by simp only [ASPEED_MBOX_NUM_REGS] at *; omega)]
      have e2 : p + 1 + j' = p + (j' + 1) := by omega
      by_cases hw : env.writeFail (ASPEED_MBOX_DATA_0 + (i + 1 + j') * 4) <;>
        by_cases hw0 : env.writeFail (ASPEED_MBOX_DATA_0 + i * 4) <;>
          simp [hw, hw0, e2, hwWrite, hne2]

theorem readBody_spec (env : Env) (putOk : Nat → Bool) (st : Mbox) (count ppos : Nat)
    (hlen : count + ppos ≤ ASPEED_MBOX_NUM_REGS)
    (hput : ∀ j, j < count → putOk j = true) :
    readBody env putOk st count ppos =
      (MboxRet.ok count, windowVals env st.regs ppos count,
       { st with
           regs := if env.writeFail ASPEED_MBOX_BMC_CTRL then st.regs
                   else hwWrite st.regs ASPEED_MBOX_BMC_CTRL ASPEED_MBOX_CTRL_RECV,
           errors := st.errors + rdFailCount env ppos count +
             (if env.writeFail ASPEED_MBOX_BMC_CTRL then 1 else 0),
           trace := st.trace ++ [Ev.lock] ++ rdEvents ppos count ++
             [Ev.wr ASPEED_MBOX_BMC_CTRL ASPEED_MBOX_CTRL_RECV, Ev.unlock] }) := by
  simp only [readBody]
  rw [readLoop_spec env putOk count ppos 0
    { st with trace := st.trace ++ [Ev.lock] }
    (by omega) (by intro j hj; simpa using hput j hj)]
  simp [aspeed_mbox_outb_eq, List.append_assoc]

theorem readBody_fault (env : Env) (putOk : Nat → Bool) (st : Mbox) (count ppos k : Nat)
    (hk : k < count)
    (hlen : count + ppos ≤ ASPEED_MBOX_NUM_REGS)
    (hput : ∀ j, j < k → putOk j = true)
    (hfail : putOk k = false) :
    readBody env putOk st count ppos =
      (MboxRet.fault, windowVals env st.regs ppos k,
       { st with
           errors := st.errors + rdFailCount env ppos (k + 1),
           trace := st.trace ++ [Ev.lock] ++ rdEvents ppos (k + 1) ++ [Ev.unlock] }) := by
  simp only [readBody]
  rw [readLoop_fault env putOk k count ppos 0
    { st with trace := st.trace ++ [Ev.lock] }
    hk (by omega) (by intro j hj; simpa using hput j hj) (by simpa using hfail)]

theorem read_invalid_eq (env : Env) (st : Mbox) (nonblock cancelled : Bool)
    (putOk : Nat → Bool) (count ppos : Nat)
    (hlen : count + ppos > ASPEED_MBOX_NUM_REGS) :
    aspeed_mbox_read env st nonblock cancelled true putOk count ppos =
      (MboxRet.invalidArgument, [], st) := by
  simp [aspeed_mbox_read, hlen]

theorem write_invalid_eq (env : Env) (st : Mbox) (getUser : Nat → Option Nat)
    (count ppos : Nat)
    (hlen : count + ppos > ASPEED_MBOX_NUM_REGS) :
    aspeed_mbox_write env st true getUser count ppos =
      (MboxRet.invalidArgument, st) := by
  simp [aspeed_mbox_write, hlen]

theorem read_nonblock_clear_eq (env : Env) (st : Mbox) (cancelled : Bool)
    (putOk : Nat → Bool) (count ppos : Nat)
    (hlen : ¬ count + ppos > ASPEED_MBOX_NUM_REGS)
    (hbit : (inbVal env st ASPEED_MBOX_BMC_CTRL).testBit 7 = false) :
    aspeed_mbox_read env st true cancelled true putOk count ppos =
      (MboxRet.wouldBlock, [],
       { st with
           errors := st.errors + (if env.readFail ASPEED_MBOX_BMC_CTRL then 1 else 0),
           trace := st.trace ++ [Ev.rd ASPEED_MBOX_BMC_CTRL] }) := by
  simp [aspeed_mbox_read, hlen, aspeed_mbox_inb_eq, hbit]

theorem read_recv_observed_eq (env : Env) (st : Mbox) (nonblock cancelled : Bool)
    (putOk : Nat → Bool) (count ppos : Nat)
    (hlen : ¬ count + ppos > ASPEED_MBOX_NUM_REGS)
    (hbit : (inbVal env st ASPEED_MBOX_BMC_CTRL).testBit 7 = true) :
    aspeed_mbox_read env st nonblock cancelled true putOk count ppos =
      readBody env putOk
        { st with
            errors := st.errors + (if env.readFail ASPEED_MBOX_BMC_CTRL then 1 else 0),
            trace := st.trace ++ [Ev.rd ASPEED_MBOX_BMC_CTRL] }
        count ppos := by
  cases nonblock <;> simp [aspeed_mbox_read, hlen, aspeed_mbox_inb_eq, hbit]

theorem aspeed_mbox_write_spec (env : Env) (st : Mbox) (getUser : Nat → Option Nat)
    (count ppos : Nat)
    (hlen : count + ppos ≤ ASPEED_MBOX_NUM_REGS)
    (hget : ∀ j, j < count → (getUser j).isSome) :
    aspeed_mbox_write env st true getUser count ppos =
      (MboxRet.ok count,
       { st with
           regs := if env.writeFail ASPEED_MBOX_BMC_CTRL
                   then windowStore env getUser st.regs ppos count 0
                   else hwWrite (windowStore env getUser st.regs ppos count 0)
                          ASPEED_MBOX_BMC_CTRL ASPEED_MBOX_CTRL_SEND,
           errors := st.errors + wrFailCount env ppos count +
             (if env.writeFail ASPEED_MBOX_BMC_CTRL then 1 else 0),
           trace := st.trace ++ [Ev.lock] ++ wrEvents getUser ppos count 0 ++
             [Ev.wr ASPEED_MBOX_BMC_CTRL ASPEED_MBOX_CTRL_SEND, Ev.unlock] }) := by
  simp only [aspeed_mbox_write]
  rw [if_neg (by simp), if_neg (by omega)]
  rw [writeLoop_spec env getUser count ppos 0
    { st with trace := st.trace ++ [Ev.lock] }
    (by omega) (by intro j hj; simpa using hget j hj)]
  simp [aspeed_mbox_outb_eq, List.append_assoc]

theorem windowVals_no_fail (env : Env) (regs : Nat → Nat) (cnt i : Nat)
    (h : ∀ j, j < cnt → env.readFail (ASPEED_MBOX_DATA_0 + (i + j) * 4) = false) :
    windowVals env regs i cnt =
      (List.range cnt).map (fun j => regs (ASPEED_MBOX_DATA_0 + (i + j) * 4) % 256) := by
  rw [windowVals_eq_map]
  apply List.map_congr_left
  intro a ha
  have := h a (List.mem_range.mp ha)
  simp [this]

/-- Claim C1: for every read call with offset+length within the 16-byte
window (fault-free bus at the control register, byte-valued control
register, writable destination buffer): if the non-blocking flag is set
and the RECV bit of the BMC control register is clear, read returns
WouldBlock and the state changes only by the recorded control-register
read — the data window is untouched; once RECV is observed set (blocking
or non-blocking), read copies `count` bytes from the data registers
starting at offset `ppos` into the caller's buffer, clears RECV and
unmasks the interrupt with a single write of the RECV bit value to the
BMC control register, touches no other register, and returns the count
of bytes copied. -/
theorem C1_read_recv_handshake (env : Env) (st : Mbox) (putOk : Nat → Bool)
    (count ppos : Nat) (cancelled : Bool)
    (hlen : count + ppos ≤ ASPEED_MBOX_NUM_REGS)
    (hctrl : env.readFail ASPEED_MBOX_BMC_CTRL = false)
    (hctrlw : env.writeFail ASPEED_MBOX_BMC_CTRL = false)
    (hbyte : st.regs ASPEED_MBOX_BMC_CTRL < 256)
    (hdata : ∀ j, j < count → env.readFail (ASPEED_MBOX_DATA_0 + (ppos + j) * 4) = false)
    (hput : ∀ j, j < count → putOk j = true) :
    ((st.regs ASPEED_MBOX_BMC_CTRL).testBit 7 = false →
      aspeed_mbox_read env st true cancelled true putOk count ppos =
        (MboxRet.wouldBlock, [],
         { st with trace := st.trace ++ [Ev.rd ASPEED_MBOX_BMC_CTRL] })) ∧
    ((st.regs ASPEED_MBOX_BMC_CTRL).testBit 7 = true →
      ∀ nonblock : Bool,
      (aspeed_mbox_read env st nonblock cancelled true putOk count ppos).1 =
          MboxRet.ok count ∧
      (aspeed_mbox_read env st nonblock cancelled true putOk count ppos).2.1 =
        (List.range count).map
          (fun j => st.regs (ASPEED_MBOX_DATA_0 + (ppos + j) * 4) % 256) ∧
      ((aspeed_mbox_read env st nonblock cancelled true putOk count ppos).2.2.regs
          ASPEED_MBOX_BMC_CTRL).testBit 7 = false ∧
      ((aspeed_mbox_read env st nonblock cancelled true putOk count ppos).2.2.regs
          ASPEED_MBOX_BMC_CTRL).testBit 1 = false ∧
      (∀ r, r ≠ ASPEED_MBOX_BMC_CTRL →
        (aspeed_mbox_read env st nonblock cancelled true putOk count ppos).2.2.regs r =
          st.regs r) ∧
      (aspeed_mbox_read env st nonblock cancelled true putOk count ppos).2.2.trace =
        st.trace ++ [Ev.rd ASPEED_MBOX_BMC_CTRL, Ev.lock] ++ rdEvents ppos count ++
          [Ev.wr ASPEED_MBOX_BMC_CTRL ASPEED_MBOX_CTRL_RECV, Ev.unlock]) := by
  have hmod : st.regs ASPEED_MBOX_BMC_CTRL % 256 = st.regs ASPEED_MBOX_BMC_CTRL :=
    Nat.mod_eq_of_lt hbyte
  have hval : inbVal env st ASPEED_MBOX_BMC_CTRL = st.regs ASPEED_MBOX_BMC_CTRL := by
    simp [inbVal, hctrl, hmod]
  constructor
  · intro hbit
    rw [read_nonblock_clear_eq env st cancelled putOk count ppos (by omega)
      (by rw [hval]; exact hbit)]
    simp [hctrl]
  · intro hbit nonblock
    rw [read_recv_observed_eq env st nonblock cancelled putOk count ppos (by omega)
      (by rw [hval]; exact hbit)]
    rw [readBody_spec env putOk _ count ppos hlen hput]
    simp only [hctrl, hctrlw, if_false, Bool.false_eq_true]
    have h128 : Nat.testBit 128 7 = true := by decide
    refine ⟨trivial, ?_, ?_, ?_, ?_, ?_⟩
    · exact windowVals_no_fail env st.regs count ppos hdata
    · rw [hwWrite_ctrl, ctrlWrite_testBit7]
      simp [ASPEED_MBOX_CTRL_RECV, h128]
    · rw [hwWrite_ctrl, ctrlWrite_testBit1]
      simp [ASPEED_MBOX_CTRL_RECV, h128]
    · intro r hr
      simp [hwWrite_other _ _ _ _ hr]
    · simp [List.append_assoc]

theorem C1_read_recv_handshake_witness :
    (2 + 0 ≤ ASPEED_MBOX_NUM_REGS) ∧
    (noFailEnv.readFail ASPEED_MBOX_BMC_CTRL = false) ∧
    (noFailEnv.writeFail ASPEED_MBOX_BMC_CTRL = false) ∧
    (stRecvSet.regs ASPEED_MBOX_BMC_CTRL < 256) ∧
    (∀ j, j < 2 → noFailEnv.readFail (ASPEED_MBOX_DATA_0 + (0 + j) * 4) = false) ∧
    (∀ j, j < 2 → (fun _ : Nat => true) j = true) ∧
    (((stRecvSet.regs ASPEED_MBOX_BMC_CTRL).testBit 7 = false →
      aspeed_mbox_read noFailEnv stRecvSet true false true (fun _ : Nat => true) 2 0 =
        (MboxRet.wouldBlock, [],
         { stRecvSet with trace := stRecvSet.trace ++ [Ev.rd ASPEED_MBOX_BMC_CTRL] })) ∧
     ((stRecvSet.regs ASPEED_MBOX_BMC_CTRL).testBit 7 = true →
      ∀ nonblock : Bool,
      (aspeed_mbox_read noFailEnv stRecvSet nonblock false true (fun _ : Nat => true) 2 0).1 =
          MboxRet.ok 2 ∧
      (aspeed_mbox_read noFailEnv stRecvSet nonblock false true (fun _ : Nat => true) 2 0).2.1 =
        (List.range 2).map
          (fun j => stRecvSet.regs (ASPEED_MBOX_DATA_0 + (0 + j) * 4) % 256) ∧
      ((aspeed_mbox_read noFailEnv stRecvSet nonblock false true (fun _ : Nat => true) 2 0).2.2.regs
          ASPEED_MBOX_BMC_CTRL).testBit 7 = false ∧
      ((aspeed_mbox_read noFailEnv stRecvSet nonblock false true (fun _ : Nat => true) 2 0).2.2.regs
          ASPEED_MBOX_BMC_CTRL).testBit 1 = false ∧
      (∀ r, r ≠ ASPEED_MBOX_BMC_CTRL →
        (aspeed_mbox_read noFailEnv stRecvSet nonblock false true (fun _ : Nat => true) 2 0).2.2.regs r =
          stRecvSet.regs r) ∧
      (aspeed_mbox_read noFailEnv stRecvSet nonblock false true (fun _ : Nat => true) 2 0).2.2.trace =
        stRecvSet.trace ++ [Ev.rd ASPEED_MBOX_BMC_CTRL, Ev.lock] ++ rdEvents 0 2 ++
          [Ev.wr ASPEED_MBOX_BMC_CTRL ASPEED_MBOX_CTRL_RECV, Ev.unlock])) :=
  ⟨by decide, by decide, by decide, by decide, by decide, by decide,
   C1_read_recv_handshake noFailEnv stRecvSet (fun _ : Nat => true) 2 0 false
     (by decide) (by decide) (by decide) (by decide) (by decide) (by decide)⟩

/-- Claim C2: for every invocation of the interrupt handler (fault-free
bus at the control register, byte-valued control register): it reads
the BMC control register once; if RECV is clear it returns not-mine
with no register write and no wakeup (the state changes only by the
recorded read); if RECV is set it performs exactly one register write —
the MASK bit value only, leaving RECV set — then wakes all blocked
waiters and returns claimed.  The trace equations show it acquires no
lock and never suspends. -/
theorem C2_irq_handler (env : Env) (st : Mbox)
    (hctrl : env.readFail ASPEED_MBOX_BMC_CTRL = false)
    (hctrlw : env.writeFail ASPEED_MBOX_BMC_CTRL = false)
    (hbyte : st.regs ASPEED_MBOX_BMC_CTRL < 256) :
    ((st.regs ASPEED_MBOX_BMC_CTRL).testBit 7 = false →
      aspeed_mbox_irq env st =
        (IrqRet.notMine, { st with trace := st.trace ++ [Ev.rd ASPEED_MBOX_BMC_CTRL] })) ∧
    ((st.regs ASPEED_MBOX_BMC_CTRL).testBit 7 = true →
      (aspeed_mbox_irq env st).1 = IrqRet.handled ∧
      (aspeed_mbox_irq env st).2.trace =
        st.trace ++ [Ev.rd ASPEED_MBOX_BMC_CTRL,
          Ev.wr ASPEED_MBOX_BMC_CTRL ASPEED_MBOX_CTRL_MASK, Ev.wake] ∧
      (aspeed_mbox_irq env st).2.wakeups = st.wakeups + 1 ∧
      ((aspeed_mbox_irq env st).2.regs ASPEED_MBOX_BMC_CTRL).testBit 7 = true ∧
      ((aspeed_mbox_irq env st).2.regs ASPEED_MBOX_BMC_CTRL).testBit 1 = true ∧
      (∀ r, r ≠ ASPEED_MBOX_BMC_CTRL → (aspeed_mbox_irq env st).2.regs r = st.regs r) ∧
      (aspeed_mbox_irq env st).2.openCount = st.openCount) := by
  have hmod : st.regs ASPEED_MBOX_BMC_CTRL % 256 = st.regs ASPEED_MBOX_BMC_CTRL :=
    Nat.mod_eq_of_lt hbyte
  constructor
  · intro hbit
    simp [aspeed_mbox_irq, aspeed_mbox_inb_eq, inbVal, hctrl, hmod, hbit]
  · intro hbit
    have h2a : Nat.testBit 2 7 = false := by decide
    have h2b : Nat.testBit 2 1 = true := by decide
    have hirq : aspeed_mbox_irq env st =
        (IrqRet.handled,
         { st with regs := hwWrite st.regs ASPEED_MBOX_BMC_CTRL ASPEED_MBOX_CTRL_MASK,
                   wakeups := st.wakeups + 1,
                   trace := st.trace ++ [Ev.rd ASPEED_MBOX_BMC_CTRL,
                     Ev.wr ASPEED_MBOX_BMC_CTRL ASPEED_MBOX_CTRL_MASK, Ev.wake] }) := by
      simp [aspeed_mbox_irq, aspeed_mbox_inb_eq, inbVal, hctrl, hmod, hbit,
        aspeed_mbox_outb_eq, hctrlw, List.append_assoc]
    rw [hirq]
    refine ⟨rfl, rfl, rfl, ?_, ?_, fun r hr => hwWrite_other _ _ _ _ hr, rfl⟩
    · show (hwWrite st.regs ASPEED_MBOX_BMC_CTRL ASPEED_MBOX_CTRL_MASK
        ASPEED_MBOX_BMC_CTRL).testBit 7 = true
      rw [hwWrite_ctrl, ctrlWrite_testBit7]
      simp [ASPEED_MBOX_CTRL_MASK, h2a, hbit]
    · show (hwWrite st.regs ASPEED_MBOX_BMC_CTRL ASPEED_MBOX_CTRL_MASK
        ASPEED_MBOX_BMC_CTRL).testBit 1 = true
      rw [hwWrite_ctrl, ctrlWrite_testBit1]
      simp [ASPEED_MBOX_CTRL_MASK, h2a, h2b]

theorem C2_irq_handler_witness :
    (noFailEnv.readFail ASPEED_MBOX_BMC_CTRL = false) ∧
    (noFailEnv.writeFail ASPEED_MBOX_BMC_CTRL = false) ∧
    (stRecvSet.regs ASPEED_MBOX_BMC_CTRL < 256) ∧
    (((stRecvSet.regs ASPEED_MBOX_BMC_CTRL).testBit 7 = false →
      aspeed_mbox_irq noFailEnv stRecvSet =
        (IrqRet.notMine, { stRecvSet with trace := stRecvSet.trace ++ [Ev.rd ASPEED_MBOX_BMC_CTRL] })) ∧
     ((stRecvSet.regs ASPEED_MBOX_BMC_CTRL).testBit 7 = true →
      (aspeed_mbox_irq noFailEnv stRecvSet).1 = IrqRet.handled ∧
      (aspeed_mbox_irq noFailEnv stRecvSet).2.trace =
        stRecvSet.trace ++ [Ev.rd ASPEED_MBOX_BMC_CTRL,
          Ev.wr ASPEED_MBOX_BMC_CTRL ASPEED_MBOX_CTRL_MASK, Ev.wake] ∧
      (aspeed_mbox_irq noFailEnv stRecvSet).2.wakeups = stRecvSet.wakeups + 1 ∧
      ((aspeed_mbox_irq noFailEnv stRecvSet).2.regs ASPEED_MBOX_BMC_CTRL).testBit 7 = true ∧
      ((aspeed_mbox_irq noFailEnv stRecvSet).2.regs ASPEED_MBOX_BMC_CTRL).testBit 1 = true ∧
      (∀ r, r ≠ ASPEED_MBOX_BMC_CTRL →
        (aspeed_mbox_irq noFailEnv stRecvSet).2.regs r = stRecvSet.regs r) ∧
      (aspeed_mbox_irq noFailEnv stRecvSet).2.openCount = stRecvSet.openCount)) :=
  ⟨by decide, by decide, by decide,
   C2_irq_handler noFailEnv stRecvSet (by decide) (by decide) (by decide)⟩

/-- Claim C3: open fails with Busy when a session is already open and
the state is left exactly as it was (no register access); otherwise it
marks the session open and performs the single acknowledge write of the
RECV bit value to the BMC control register — clearing any stale RECV
and unmasking the interrupt in one step — with no data-window side
effects; close clears the session with no register access, and a
subsequent open succeeds. -/
theorem C3_open_close (env : Env) (st : Mbox)
    (hctrlw : env.writeFail ASPEED_MBOX_BMC_CTRL = false) :
    (st.openCount ≠ 0 →
      aspeed_mbox_open env st = (MboxRet.busy, st)) ∧
    (st.openCount = 0 →
      (aspeed_mbox_open env st).1 = MboxRet.ok 0 ∧
      (aspeed_mbox_open env st).2.openCount = 1 ∧
      (aspeed_mbox_open env st).2.trace =
        st.trace ++ [Ev.wr ASPEED_MBOX_BMC_CTRL ASPEED_MBOX_CTRL_RECV] ∧
      ((aspeed_mbox_open env st).2.regs ASPEED_MBOX_BMC_CTRL).testBit 7 = false ∧
      ((aspeed_mbox_open env st).2.regs ASPEED_MBOX_BMC_CTRL).testBit 1 = false ∧
      (∀ r, r ≠ ASPEED_MBOX_BMC_CTRL → (aspeed_mbox_open env st).2.regs r = st.regs r)) ∧
    (aspeed_mbox_release st =
      (MboxRet.ok 0, { st with openCount := st.openCount - 1 })) ∧
    (st.openCount = 1 →
      (aspeed_mbox_open env (aspeed_mbox_release st).2).1 = MboxRet.ok 0) := by
  have h128 : Nat.testBit 128 7 = true := by decide
  refine ⟨?_, ?_, rfl, ?_⟩
  · intro h
    rw [aspeed_mbox_open, if_neg (by omega)]
  · intro h
    have hop : aspeed_mbox_open env st =
        (MboxRet.ok 0,
         { st with openCount := st.openCount + 1,
                   regs := hwWrite st.regs ASPEED_MBOX_BMC_CTRL ASPEED_MBOX_CTRL_RECV,
                   trace := st.trace ++ [Ev.wr ASPEED_MBOX_BMC_CTRL ASPEED_MBOX_CTRL_RECV] }) := by
      rw [aspeed_mbox_open, if_pos (by omega)]
      simp [aspeed_mbox_outb_eq, hctrlw]
    rw [hop]
    refine ⟨rfl, by simp [h], rfl, ?_, ?_, fun r hr => hwWrite_other _ _ _ _ hr⟩
    · show (hwWrite st.regs ASPEED_MBOX_BMC_CTRL ASPEED_MBOX_CTRL_RECV
        ASPEED_MBOX_BMC_CTRL).testBit 7 = false
      rw [hwWrite_ctrl, ctrlWrite_testBit7]
      simp [ASPEED_MBOX_CTRL_RECV, h128]
    · show (hwWrite st.regs ASPEED_MBOX_BMC_CTRL ASPEED_MBOX_CTRL_RECV
        ASPEED_MBOX_BMC_CTRL).testBit 1 = false
      rw [hwWrite_ctrl, ctrlWrite_testBit1]
      simp [ASPEED_MBOX_CTRL_RECV, h128]
  · intro h
    rw [aspeed_mbox_release]
    rw [aspeed_mbox_open, if_pos (by simp [h])]

theorem C3_open_close_witness :
    (noFailEnv.writeFail ASPEED_MBOX_BMC_CTRL = false) ∧
    ((stRecvSet.openCount ≠ 0 →
      aspeed_mbox_open noFailEnv stRecvSet = (MboxRet.busy, stRecvSet)) ∧
     (stRecvSet.openCount = 0 →
      (aspeed_mbox_open noFailEnv stRecvSet).1 = MboxRet.ok 0 ∧
      (aspeed_mbox_open noFailEnv stRecvSet).2.openCount = 1 ∧
      (aspeed_mbox_open noFailEnv stRecvSet).2.trace =
        stRecvSet.trace ++ [Ev.wr ASPEED_MBOX_BMC_CTRL ASPEED_MBOX_CTRL_RECV] ∧
      ((aspeed_mbox_open noFailEnv stRecvSet).2.regs ASPEED_MBOX_BMC_CTRL).testBit 7 = false ∧
      ((aspeed_mbox_open noFailEnv stRecvSet).2.regs ASPEED_MBOX_BMC_CTRL).testBit 1 = false ∧
      (∀ r, r ≠ ASPEED_MBOX_BMC_CTRL →
        (aspeed_mbox_open noFailEnv stRecvSet).2.regs r = stRecvSet.regs r)) ∧
     (aspeed_mbox_release stRecvSet =
      (MboxRet.ok 0, { stRecvSet with openCount := stRecvSet.openCount - 1 })) ∧
     (stRecvSet.openCount = 1 →
      (aspeed_mbox_open noFailEnv (aspeed_mbox_release stRecvSet).2).1 = MboxRet.ok 0)) :=
  ⟨by decide, C3_open_close noFailEnv stRecvSet (by decide)⟩

/-- Claim C4: for every offset and length with offset+length within the
16-byte window and a readable source buffer (fault-free bus on the
touched registers), write acquires the lock, stores each of the length
source bytes verbatim into the data registers at positions
offset..offset+length-1 regardless of the RECV state (the control
register is unconstrained), writes the SEND bit value to the BMC
control register (leaving SEND set), releases the lock, and returns
the number of bytes written; its trace contains no sleep event. -/
theorem C4_write_stores_verbatim (env : Env) (st : Mbox)
    (getUser : Nat → Option Nat) (data : Nat → Nat) (count ppos : Nat)
    (hlen : count + ppos ≤ ASPEED_MBOX_NUM_REGS)
    (hget : ∀ j, j < count → getUser j = some (data j))
    (hbyte : ∀ j, j < count → data j < 256)
    (hwf : ∀ j, j < count → env.writeFail (ASPEED_MBOX_DATA_0 + (ppos + j) * 4) = false)
    (hctrlw : env.writeFail ASPEED_MBOX_BMC_CTRL = false) :
    (aspeed_mbox_write env st true getUser count ppos).1 = MboxRet.ok count ∧
    (∀ j, j < count →
      (aspeed_mbox_write env st true getUser count ppos).2.regs
        (ASPEED_MBOX_DATA_0 + (ppos + j) * 4) = data j) ∧
    (((aspeed_mbox_write env st true getUser count ppos).2.regs
        ASPEED_MBOX_BMC_CTRL).testBit 0 = true) ∧
    (∀ r, r ≠ ASPEED_MBOX_BMC_CTRL →
      (∀ j, j < count → r ≠ ASPEED_MBOX_DATA_0 + (ppos + j) * 4) →
      (aspeed_mbox_write env st true getUser count ppos).2.regs r = st.regs r) ∧
    (aspeed_mbox_write env st true getUser count ppos).2.trace =
      st.trace ++ [Ev.lock] ++ wrEvents getUser ppos count 0 ++
        [Ev.wr ASPEED_MBOX_BMC_CTRL ASPEED_MBOX_CTRL_SEND, Ev.unlock] := by
  rw [aspeed_mbox_write_spec env st getUser count ppos hlen
    (by intro j hj; rw [hget j hj]; rfl)]
  simp only [hctrlw, if_false, Bool.false_eq_true]
  refine ⟨trivial, ?_, ?_, ?_, trivial⟩
  · intro j hj
    have hne : ASPEED_MBOX_DATA_0 + (ppos + j) * 4 ≠ ASPEED_MBOX_BMC_CTRL := by
      simp only [ASPEED_MBOX_DATA_0, ASPEED_MBOX_BMC_CTRL,
        ASPEED_MBOX_NUM_REGS] at *
      omega
    show hwWrite (windowStore env getUser st.regs ppos count 0)
      ASPEED_MBOX_BMC_CTRL ASPEED_MBOX_CTRL_SEND
      (ASPEED_MBOX_DATA_0 + (ppos + j) * 4) = data j
    rw [hwWrite_other _ _ _ _ hne]
    rw [windowStore_hit env getUser count ppos 0 j st.regs hj
      (by simp only [ASPEED_MBOX_NUM_REGS] at *; omega)]
    rw [if_neg (by rw [hwf j hj]; simp)]
    simp only [Nat.zero_add]
    rw [hget j hj]
    simp [Nat.mod_eq_of_lt (hbyte j hj)]
  · show (hwWrite (windowStore env getUser st.regs ppos count 0)
      ASPEED_MBOX_BMC_CTRL ASPEED_MBOX_CTRL_SEND ASPEED_MBOX_BMC_CTRL).testBit 0 = true
    rw [hwWrite_ctrl, ctrlWrite_testBit0]
    simp [ASPEED_MBOX_CTRL_SEND]
  · intro r hr hrj
    show hwWrite (windowStore env getUser st.regs ppos count 0)
      ASPEED_MBOX_BMC_CTRL ASPEED_MBOX_CTRL_SEND r = st.regs r
    rw [hwWrite_other _ _ _ _ hr]
    exact windowStore_miss env getUser count ppos 0 st.regs r
      (by intro j hj; exact hrj j hj)

theorem C4_write_stores_verbatim_witness :
    (2 + 1 ≤ ASPEED_MBOX_NUM_REGS) ∧
    (∀ j, j < 2 → (fun k : Nat => some (k + 40)) j = some ((fun k : Nat => k + 40) j)) ∧
    (∀ j, j < 2 → (fun k : Nat => k + 40) j < 256) ∧
    (∀ j, j < 2 → noFailEnv.writeFail (ASPEED_MBOX_DATA_0 + (1 + j) * 4) = false) ∧
    (noFailEnv.writeFail ASPEED_MBOX_BMC_CTRL = false) ∧
    ((aspeed_mbox_write noFailEnv stRecvSet true (fun k : Nat => some (k + 40)) 2 1).1 =
        MboxRet.ok 2 ∧
     (∀ j, j < 2 →
      (aspeed_mbox_write noFailEnv stRecvSet true (fun k : Nat => some (k + 40)) 2 1).2.regs
        (ASPEED_MBOX_DATA_0 + (1 + j) * 4) = (fun k : Nat => k + 40) j) ∧
     (((aspeed_mbox_write noFailEnv stRecvSet true (fun k : Nat => some (k + 40)) 2 1).2.regs
        ASPEED_MBOX_BMC_CTRL).testBit 0 = true) ∧
     (∀ r, r ≠ ASPEED_MBOX_BMC_CTRL →
      (∀ j, j < 2 → r ≠ ASPEED_MBOX_DATA_0 + (1 + j) * 4) →
      (aspeed_mbox_write noFailEnv stRecvSet true (fun k : Nat => some (k + 40)) 2 1).2.regs r =
        stRecvSet.regs r) ∧
     (aspeed_mbox_write noFailEnv stRecvSet true (fun k : Nat => some (k + 40)) 2 1).2.trace =
      stRecvSet.trace ++ [Ev.lock] ++ wrEvents (fun k : Nat => some (k + 40)) 1 2 0 ++
        [Ev.wr ASPEED_MBOX_BMC_CTRL ASPEED_MBOX_CTRL_SEND, Ev.unlock]) :=
  ⟨by decide, by decide, by decide, by decide, by decide,
   C4_write_stores_verbatim noFailEnv stRecvSet (fun k : Nat => some (k + 40))
     (fun k : Nat => k + 40) 2 1 (by decide) (by decide) (by decide) (by decide) (by decide)⟩

/-- Claim C5: for every read or write call with offset+length beyond the
16-byte window (and an accessible buffer), the call returns
InvalidArgument and the state — the RECV bit, the control register, the
data window and the event trace — is exactly what it was: no hardware
access happened. -/
theorem C5_bound_check (env : Env) (st : Mbox) (nonblock cancelled : Bool)
    (putOk : Nat → Bool) (getUser : Nat → Option Nat) (count ppos : Nat)
    (hlen : count + ppos > ASPEED_MBOX_NUM_REGS) :
    aspeed_mbox_read env st nonblock cancelled true putOk count ppos =
      (MboxRet.invalidArgument, [], st) ∧
    aspeed_mbox_write env st true getUser count ppos =
      (MboxRet.invalidArgument, st) :=
  ⟨read_invalid_eq env st nonblock cancelled putOk count ppos hlen,
   write_invalid_eq env st getUser count ppos hlen⟩

theorem C5_bound_check_witness :
    (17 + 0 > ASPEED_MBOX_NUM_REGS) ∧
    (aspeed_mbox_read noFailEnv stRecvSet true false true (fun _ : Nat => true) 17 0 =
      (MboxRet.invalidArgument, [], stRecvSet) ∧
     aspeed_mbox_write noFailEnv stRecvSet true (fun k : Nat => some k) 17 0 =
      (MboxRet.invalidArgument, stRecvSet)) :=
  ⟨by decide,
   C5_bound_check noFailEnv stRecvSet true false (fun _ : Nat => true)
     (fun k : Nat => some k) 17 0 (by decide)⟩

/-- Claim C6: a failed bus read during read's copy loop substitutes the
sentinel byte 0xff (all bits set) at that index, logs the failure (one
dev_err per failing register, counted in `errors`), and the remaining
copy loop continues uninterrupted with the result kind unchanged — the
read still returns the full byte count; a failed bus write in write's
copy loop is likewise logged and the write still returns the byte
count, never escalating to a channel-level error. -/
theorem C6_bus_soft_faults (env : Env) (st : Mbox) (putOk : Nat → Bool)
    (getUser : Nat → Option Nat) (data : Nat → Nat) (count ppos : Nat)
    (hlen : count + ppos ≤ ASPEED_MBOX_NUM_REGS)
    (hctrl : env.readFail ASPEED_MBOX_BMC_CTRL = false)
    (hctrlw : env.writeFail ASPEED_MBOX_BMC_CTRL = false)
    (hbyte : st.regs ASPEED_MBOX_BMC_CTRL < 256)
    (hbit : (st.regs ASPEED_MBOX_BMC_CTRL).testBit 7 = true)
    (hput : ∀ j, j < count → putOk j = true)
    (hget : ∀ j, j < count → getUser j = some (data j)) :
    (aspeed_mbox_read env st true false true putOk count ppos).1 = MboxRet.ok count ∧
    (aspeed_mbox_read env st true false true putOk count ppos).2.1 =
      (List.range count).map (fun j =>
        if env.readFail (ASPEED_MBOX_DATA_0 + (ppos + j) * 4) then 0xff
        else st.regs (ASPEED_MBOX_DATA_0 + (ppos + j) * 4) % 256) ∧
    (aspeed_mbox_read env st true false true putOk count ppos).2.2.errors =
      st.errors + rdFailCount env ppos count ∧
    (∀ j, j < count → env.readFail (ASPEED_MBOX_DATA_0 + (ppos + j) * 4) = true →
      1 ≤ rdFailCount env ppos count) ∧
    (aspeed_mbox_write env st true getUser count ppos).1 = MboxRet.ok count ∧
    (aspeed_mbox_write env st true getUser count ppos).2.errors =
      st.errors + wrFailCount env ppos count ∧
    (∀ j, j < count → env.writeFail (ASPEED_MBOX_DATA_0 + (ppos + j) * 4) = true →
      1 ≤ wrFailCount env ppos count) := by
  have hmod : st.regs ASPEED_MBOX_BMC_CTRL % 256 = st.regs ASPEED_MBOX_BMC_CTRL :=
    Nat.mod_eq_of_lt hbyte
  have hrd : aspeed_mbox_read env st true false true putOk count ppos =
      readBody env putOk
        { st with
            errors := st.errors + (if env.readFail ASPEED_MBOX_BMC_CTRL then 1 else 0),
            trace := st.trace ++ [Ev.rd ASPEED_MBOX_BMC_CTRL] }
        count ppos :=
    read_recv_observed_eq env st true false putOk count ppos (by omega)
      (by simp [inbVal, hctrl, hmod, hbit])
  rw [hrd, readBody_spec env putOk _ count ppos hlen hput]
  rw [aspeed_mbox_write_spec env st getUser count ppos hlen
    (by intro j hj; rw [hget j hj]; rfl)]
  simp only [hctrl, hctrlw, if_false, Bool.false_eq_true]
  refine ⟨trivial, windowVals_eq_map env st.regs count ppos, by simp, ?_, trivial, by simp, ?_⟩
  · intro j hj hf
    exact rdFailCount_pos env count ppos j hj hf
  · intro j hj hf
    exact wrFailCount_pos env count ppos j hj hf

theorem C6_bus_soft_faults_witness :
    (2 + 0 ≤ ASPEED_MBOX_NUM_REGS) ∧
    (dataReadFailEnv.readFail ASPEED_MBOX_BMC_CTRL = false) ∧
    (dataReadFailEnv.writeFail ASPEED_MBOX_BMC_CTRL = false) ∧
    (stRecvSet.regs ASPEED_MBOX_BMC_CTRL < 256) ∧
    ((stRecvSet.regs ASPEED_MBOX_BMC_CTRL).testBit 7 = true) ∧
    ((aspeed_mbox_read dataReadFailEnv stRecvSet true false true (fun _ : Nat => true) 2 0).1 =
        MboxRet.ok 2 ∧
     (aspeed_mbox_read dataReadFailEnv stRecvSet true false true (fun _ : Nat => true) 2 0).2.1 =
      (List.range 2).map (fun j =>
        if dataReadFailEnv.readFail (ASPEED_MBOX_DATA_0 + (0 + j) * 4) then 0xff
        else stRecvSet.regs (ASPEED_MBOX_DATA_0 + (0 + j) * 4) % 256) ∧
     (aspeed_mbox_read dataReadFailEnv stRecvSet true false true (fun _ : Nat => true) 2 0).2.2.errors =
      stRecvSet.errors + rdFailCount dataReadFailEnv 0 2 ∧
     (∀ j, j < 2 → dataReadFailEnv.readFail (ASPEED_MBOX_DATA_0 + (0 + j) * 4) = true →
       1 ≤ rdFailCount dataReadFailEnv 0 2) ∧
     (aspeed_mbox_write dataReadFailEnv stRecvSet true (fun k : Nat => some k) 2 0).1 =
        MboxRet.ok 2 ∧
     (aspeed_mbox_write dataReadFailEnv stRecvSet true (fun k : Nat => some k) 2 0).2.errors =
      stRecvSet.errors + wrFailCount dataReadFailEnv 0 2 ∧
     (∀ j, j < 2 → dataReadFailEnv.writeFail (ASPEED_MBOX_DATA_0 + (0 + j) * 4) = true →
       1 ≤ wrFailCount dataReadFailEnv 0 2)) :=
  ⟨by decide, by decide, by decide, by decide, by decide,
   C6_bus_soft_faults dataReadFailEnv stRecvSet (fun _ : Nat => true)
     (fun k : Nat => some k) (fun k : Nat => k) 2 0
     (by decide) (by decide) (by decide) (by decide) (by decide) (by decide)
     (by intro j hj; rfl)⟩

/-- Claim C7 counterexample: with RECV set and a destination buffer
that accepts byte 0 but rejects byte 1, read of two bytes copies one
byte and then returns the bare Fault error code — not the partial
count 1 the claim asserts is returned together with the fault. -/
theorem C7_counterexample :
    (aspeed_mbox_read noFailEnv stRecvSet true false true (fun p : Nat => p == 0) 2 0).1 =
      MboxRet.fault ∧
    (aspeed_mbox_read noFailEnv stRecvSet true false true (fun p : Nat => p == 0) 2 0).2.1.length
      = 1 ∧
    (aspeed_mbox_read noFailEnv stRecvSet true false true (fun p : Nat => p == 0) 2 0).1 ≠
      MboxRet.ok 1 := by
  decide

/-- Claim C7 (amended): if, during read's copy loop, the destination
buffer cannot accept the byte at buffer index k (earlier indices were
accepted), the transfer stops early — only the data registers up to
index k are read, the k bytes already accepted stay delivered — and
read returns the bare Fault error code; the partial count is discarded
rather than returned. -/
theorem C7_fault_stops_early (env : Env) (st : Mbox) (putOk : Nat → Bool)
    (count ppos k : Nat)
    (hk : k < count)
    (hlen : count + ppos ≤ ASPEED_MBOX_NUM_REGS)
    (hctrl : env.readFail ASPEED_MBOX_BMC_CTRL = false)
    (hbyte : st.regs ASPEED_MBOX_BMC_CTRL < 256)
    (hbit : (st.regs ASPEED_MBOX_BMC_CTRL).testBit 7 = true)
    (hput : ∀ j, j < k → putOk j = true)
    (hfail : putOk k = false) :
    (aspeed_mbox_read env st true false true putOk count ppos).1 = MboxRet.fault ∧
    (aspeed_mbox_read env st true false true putOk count ppos).2.1 =
      windowVals env st.regs ppos k ∧
    (aspeed_mbox_read env st true false true putOk count ppos).2.2.trace =
      st.trace ++ [Ev.rd ASPEED_MBOX_BMC_CTRL, Ev.lock] ++ rdEvents ppos (k + 1) ++
        [Ev.unlock] := by
  have hmod : st.regs ASPEED_MBOX_BMC_CTRL % 256 = st.regs ASPEED_MBOX_BMC_CTRL :=
    Nat.mod_eq_of_lt hbyte
  have hrd : aspeed_mbox_read env st true false true putOk count ppos =
      readBody env putOk
        { st with
            errors := st.errors + (if env.readFail ASPEED_MBOX_BMC_CTRL then 1 else 0),
            trace := st.trace ++ [Ev.rd ASPEED_MBOX_BMC_CTRL] }
        count ppos :=
    read_recv_observed_eq env st true false putOk count ppos (by omega)
      (by simp [inbVal, hctrl, hmod, hbit])
  rw [hrd, readBody_fault env putOk _ count ppos k hk hlen hput hfail]
  refine ⟨rfl, rfl, ?_⟩
  simp [hctrl, List.append_assoc]

theorem C7_fault_stops_early_witness :
    (1 < 2) ∧
    (2 + 0 ≤ ASPEED_MBOX_NUM_REGS) ∧
    (noFailEnv.readFail ASPEED_MBOX_BMC_CTRL = false) ∧
    (stRecvSet.regs ASPEED_MBOX_BMC_CTRL < 256) ∧
    ((stRecvSet.regs ASPEED_MBOX_BMC_CTRL).testBit 7 = true) ∧
    (∀ j, j < 1 → (fun p : Nat => p == 0) j = true) ∧
    ((fun p : Nat => p == 0) 1 = false) ∧
    ((aspeed_mbox_read noFailEnv stRecvSet true false true (fun p : Nat => p == 0) 2 0).1 =
        MboxRet.fault ∧
     (aspeed_mbox_read noFailEnv stRecvSet true false true (fun p : Nat => p == 0) 2 0).2.1 =
        windowVals noFailEnv stRecvSet.regs 0 1 ∧
     (aspeed_mbox_read noFailEnv stRecvSet true false true (fun p : Nat => p == 0) 2 0).2.2.trace =
        stRecvSet.trace ++ [Ev.rd ASPEED_MBOX_BMC_CTRL, Ev.lock] ++ rdEvents 0 (1 + 1) ++
          [Ev.unlock]) :=
  ⟨by decide, by decide, by decide, by decide, by decide, by decide, by decide,
   C7_fault_stops_early noFailEnv stRecvSet (fun p : Nat => p == 0) 2 0 1
     (by decide) (by decide) (by decide) (by decide) (by decide) (by decide) (by decide)⟩

/-- Claim C9: when read's copy loop stops on a destination-buffer
fault, the RECV-acknowledge write is skipped entirely: no register
changes at all, so the RECV bit remains set, and if the interrupt was
masked (as the interrupt handler left it) it remains masked; the trace
shows the locked section ended with no control-register write. -/
theorem C9_fault_skips_ack (env : Env) (st : Mbox) (putOk : Nat → Bool)
    (count ppos k : Nat)
    (hk : k < count)
    (hlen : count + ppos ≤ ASPEED_MBOX_NUM_REGS)
    (hctrl : env.readFail ASPEED_MBOX_BMC_CTRL = false)
    (hbyte : st.regs ASPEED_MBOX_BMC_CTRL < 256)
    (hbit : (st.regs ASPEED_MBOX_BMC_CTRL).testBit 7 = true)
    (hput : ∀ j, j < k → putOk j = true)
    (hfail : putOk k = false) :
    (∀ r, (aspeed_mbox_read env st true false true putOk count ppos).2.2.regs r = st.regs r) ∧
    (((aspeed_mbox_read env st true false true putOk count ppos).2.2.regs
        ASPEED_MBOX_BMC_CTRL).testBit 7 = true) ∧
    ((st.regs ASPEED_MBOX_BMC_CTRL).testBit 1 = true →
      ((aspeed_mbox_read env st true false true putOk count ppos).2.2.regs
        ASPEED_MBOX_BMC_CTRL).testBit 1 = true) ∧
    (aspeed_mbox_read env st true false true putOk count ppos).2.2.trace =
      st.trace ++ [Ev.rd ASPEED_MBOX_BMC_CTRL, Ev.lock] ++ rdEvents ppos (k + 1) ++
        [Ev.unlock] := by
  have hmod : st.regs ASPEED_MBOX_BMC_CTRL % 256 = st.regs ASPEED_MBOX_BMC_CTRL :=
    Nat.mod_eq_of_lt hbyte
  have hrd : aspeed_mbox_read env st true false true putOk count ppos =
      readBody env putOk
        { st with
            errors := st.errors + (if env.readFail ASPEED_MBOX_BMC_CTRL then 1 else 0),
            trace := st.trace ++ [Ev.rd ASPEED_MBOX_BMC_CTRL] }
        count ppos :=
    read_recv_observed_eq env st true false putOk count ppos (by omega)
      (by simp [inbVal, hctrl, hmod, hbit])
  rw [hrd, readBody_fault env putOk _ count ppos k hk hlen hput hfail]
  refine ⟨fun r => rfl, hbit, fun h => h, ?_⟩
  simp [hctrl, List.append_assoc]

theorem C9_fault_skips_ack_witness :
    (1 < 2) ∧
    (2 + 0 ≤ ASPEED_MBOX_NUM_REGS) ∧
    (noFailEnv.readFail ASPEED_MBOX_BMC_CTRL = false) ∧
    (stRecvMasked.regs ASPEED_MBOX_BMC_CTRL < 256) ∧
    ((stRecvMasked.regs ASPEED_MBOX_BMC_CTRL).testBit 7 = true) ∧
    ((stRecvMasked.regs ASPEED_MBOX_BMC_CTRL).testBit 1 = true) ∧
    ((∀ r, (aspeed_mbox_read noFailEnv stRecvMasked true false true
        (fun p : Nat => p == 0) 2 0).2.2.regs r = stRecvMasked.regs r) ∧
     (((aspeed_mbox_read noFailEnv stRecvMasked true false true
        (fun p : Nat => p == 0) 2 0).2.2.regs ASPEED_MBOX_BMC_CTRL).testBit 7 = true) ∧
     ((stRecvMasked.regs ASPEED_MBOX_BMC_CTRL).testBit 1 = true →
      ((aspeed_mbox_read noFailEnv stRecvMasked true false true
        (fun p : Nat => p == 0) 2 0).2.2.regs ASPEED_MBOX_BMC_CTRL).testBit 1 = true) ∧
     (aspeed_mbox_read noFailEnv stRecvMasked true false true
        (fun p : Nat => p == 0) 2 0).2.2.trace =
      stRecvMasked.trace ++ [Ev.rd ASPEED_MBOX_BMC_CTRL, Ev.lock] ++ rdEvents 0 (1 + 1) ++
        [Ev.unlock]) :=
  ⟨by decide, by decide, by decide, by decide, by decide, by decide,
   C9_fault_skips_ack noFailEnv stRecvMasked (fun p : Nat => p == 0) 2 0 1
     (by decide) (by decide) (by decide) (by decide) (by decide) (by decide) (by decide)⟩

/-- Claim C8 counterexample: with an accessible buffer whose bytes
nevertheless cannot be fetched (__get_user fails), write of one byte
returns Fault — a result kind outside the claimed
bytes-written-or-InvalidArgument interface. -/
theorem C8_counterexample :
    (aspeed_mbox_write noFailEnv stRecvSet true (fun _ : Nat => (none : Option Nat)) 1 0).1 =
      MboxRet.fault ∧
    writeResultInTable
      (aspeed_mbox_write noFailEnv stRecvSet true (fun _ : Nat => (none : Option Nat)) 1 0).1 =
      false := by
  decide

/-- Claim C8 (amended): for every input, write returns either the
number of bytes written, InvalidArgument, or Fault (access_ok or
__get_user failure) — no further result kind is possible at the write
operation's interface. -/
theorem C8_write_result_kinds (env : Env) (st : Mbox) (accessOk : Bool)
    (getUser : Nat → Option Nat) (count ppos : Nat) :
    writeResultPossible (aspeed_mbox_write env st accessOk getUser count ppos).1 = true := by
  unfold aspeed_mbox_write
  split
  · rfl
  · split
    · rfl
    · rcases h : writeLoop env getUser { st with trace := st.trace ++ [Ev.lock] } ppos count 0
        with ⟨o, st1⟩
      cases o <;> simp [h, writeResultPossible]

/-- Claim C10: when the bus read of the BMC control register itself
fails, the substituted sentinel 0xff has bit 7 (the RECV bit) set, so
the observed value reports the channel readable: poll returns
readable, a non-blocking read proceeds to copy data and returns the
byte count instead of WouldBlock, and the interrupt handler claims the
interrupt — at the public interface the control-register bus failure is
indistinguishable from pending data. -/
theorem C10_ctrl_read_failure (env : Env) (st : Mbox) (putOk : Nat → Bool)
    (count ppos : Nat)
    (henv : env.readFail ASPEED_MBOX_BMC_CTRL = true)
    (hlen : count + ppos ≤ ASPEED_MBOX_NUM_REGS)
    (hput : ∀ j, j < count → putOk j = true) :
    (aspeed_mbox_inb env st ASPEED_MBOX_BMC_CTRL).1 = 0xff ∧
    ((aspeed_mbox_inb env st ASPEED_MBOX_BMC_CTRL).1).testBit 7 = true ∧
    (aspeed_mbox_poll env st).1 = true ∧
    (aspeed_mbox_read env st true false true putOk count ppos).1 = MboxRet.ok count ∧
    (aspeed_mbox_irq env st).1 = IrqRet.handled := by
  have hval : inbVal env st ASPEED_MBOX_BMC_CTRL = 0xff := by simp [inbVal, henv]
  have hbit : (inbVal env st ASPEED_MBOX_BMC_CTRL).testBit 7 = true := by
    rw [hval]; decide
  refine ⟨?_, ?_, ?_, ?_, ?_⟩
  · rw [aspeed_mbox_inb_eq]; exact hval
  · rw [aspeed_mbox_inb_eq]; exact hbit
  · unfold aspeed_mbox_poll
    rw [aspeed_mbox_inb_eq]
    exact hbit
  · rw [read_recv_observed_eq env st true false putOk count ppos (by omega) hbit]
    rw [readBody_spec env putOk _ count ppos hlen hput]
  · unfold aspeed_mbox_irq
    rw [aspeed_mbox_inb_eq]
    simp [hbit]

theorem C10_ctrl_read_failure_witness :
    (ctrlReadFailEnv.readFail ASPEED_MBOX_BMC_CTRL = true) ∧
    (1 + 0 ≤ ASPEED_MBOX_NUM_REGS) ∧
    (∀ j, j < 1 → (fun _ : Nat => true) j = true) ∧
    ((aspeed_mbox_inb ctrlReadFailEnv stRecvClear ASPEED_MBOX_BMC_CTRL).1 = 0xff ∧
     ((aspeed_mbox_inb ctrlReadFailEnv stRecvClear ASPEED_MBOX_BMC_CTRL).1).testBit 7 = true ∧
     (aspeed_mbox_poll ctrlReadFailEnv stRecvClear).1 = true ∧
     (aspeed_mbox_read ctrlReadFailEnv stRecvClear true false true (fun _ : Nat => true) 1 0).1 =
        MboxRet.ok 1 ∧
     (aspeed_mbox_irq ctrlReadFailEnv stRecvClear).1 = IrqRet.handled) :=
  ⟨by decide, by decide, by decide,
   C10_ctrl_read_failure ctrlReadFailEnv stRecvClear (fun _ : Nat => true) 1 0
     (by decide) (by decide) (by decide)⟩
